import Mathlib

/-!
# Verification of the ftpd protocol core

A shallow embedding of the ftpd FTP server (packages `ftp`, `ftp/handler`,
`config` and the TCP connection glue) into Lean 4, together with proofs and
refutations of the specification's claims about it.

Go strings are embedded as `List Char` (`GoStr`).  The Go standard-library
helpers the server calls (`strings.Split`, `strings.Join`, `strings.ToUpper`,
`strconv.Atoi`, `strconv.Itoa`, `path/filepath.Clean/Join/Abs/Rel` on a Unix
separator) are embedded alongside, faithful to their documented behaviour on
the inputs the server can feed them.  Panics of the Go code (out-of-range
indexing, nil dereference) are modelled as an explicit `crash` outcome.
-/

/-- A Go string, embedded as its list of characters. -/
abbrev GoStr := List Char

/-- Coerce a Lean string literal into the embedding. -/
def gs (s : String) : GoStr := s.data

/-- `strings.Split(s, sep)` for a single-character separator `sep`
(every separator used by the server — `" "`, `","`, `"."`, `":"`, `"/"` —
is a single character).  Always returns at least one token. -/
def splitOnChar (c : Char) : GoStr → List GoStr
  | [] => [[]]
  | x :: xs =>
    if x = c then [] :: splitOnChar c xs
    else
      match splitOnChar c xs with
      | [] => [[x]]
      | y :: ys => (x :: y) :: ys

/-- `strings.Join(parts, sep)` for a single-character separator. -/
def joinChar (c : Char) : List GoStr → GoStr
  | [] => []
  | [x] => x
  | x :: xs => x ++ c :: joinChar c xs

/-! ## Decimal conversion: `strconv.Itoa` / `strconv.Atoi`

`strconv.Itoa n` produces the canonical decimal representation.
`strconv.Atoi` parses an optional sign followed by decimal digits and
fails (returning 0 alongside the error) on an empty or non-numeric string;
the server always discards the error, so the embedding exposes the
`Option` and call sites take `.getD 0`.  The 64-bit range clamping of
`strconv.Atoi` is not modelled: no claim exercises an out-of-range number. -/
def isDigitChar (ch : Char) : Bool := '0' ≤ ch && ch ≤ '9'

def digitVal (ch : Char) : Nat := ch.toNat - '0'.toNat

def digitChar (k : Nat) : Char := Char.ofNat (48 + k)

/-- Decimal digits, least significant first, with structural fuel so that
the kernel can evaluate it (`fuel > n` always suffices). -/
def toDigitsRevGo : Nat → Nat → GoStr
  | 0, _ => []
  | fuel + 1, n =>
    if n < 10 then [digitChar n]
    else digitChar (n % 10) :: toDigitsRevGo fuel (n / 10)

/-- Decimal digits of `n`, least significant first. -/
def toDigitsRev (n : Nat) : GoStr := toDigitsRevGo (n + 1) n

/-- `strconv.Itoa` on a natural number. -/
def itoaNat (n : Nat) : GoStr := (toDigitsRev n).reverse

/-- `strconv.Itoa` (Go `int` arguments may be negative). -/
def itoaInt (i : Int) : GoStr :=
  if i < 0 then '-' :: itoaNat (-i).toNat else itoaNat i.toNat

def atoiDigits : Nat → GoStr → Option Nat
  | acc, [] => some acc
  | acc, ch :: rest =>
    if isDigitChar ch then atoiDigits (acc * 10 + digitVal ch) rest else none

/-- Parse a nonempty all-digit string. -/
def atoiNat : GoStr → Option Nat
  | [] => none
  | s => atoiDigits 0 s

/-- `strconv.Atoi`: optional sign, then digits. -/
def atoi (s : GoStr) : Option Int :=
  match s with
  | [] => none
  | ch :: rest =>
    if ch = '-' then (atoiNat rest).map (fun n => -(n : Int))
    else if ch = '+' then (atoiNat rest).map (fun n => (n : Int))
    else (atoiNat s).map (fun n => (n : Int))

/-! ## `path/filepath` on a Unix separator

The server resolves paths with `filepath.IsAbs`, `filepath.Join`,
`filepath.Abs` and `filepath.Rel`.  On Unix these are pure functions of
their arguments (`Abs` additionally reads the process working directory,
passed here explicitly).  `Clean` is embedded by its component algorithm:
split on `/`, drop empty and `.` components, resolve `..` against the
stack (dropping it at the root, keeping it at the front of a relative
path), and re-join. -/
def isAbs (p : GoStr) : Bool := p.head? = some '/'

/-- The element stack of `filepath.Clean`: `acc` holds already-emitted
components in reverse. -/
def cleanComponents (rooted : Bool) : List GoStr → List GoStr → List GoStr
  | acc, [] => acc.reverse
  | acc, c :: cs =>
    if c = [] ∨ c = ['.'] then cleanComponents rooted acc cs
    else if c = ['.', '.'] then
      match acc with
      | [] =>
        if rooted then cleanComponents rooted [] cs
        else cleanComponents rooted [['.', '.']] cs
      | a :: as =>
        if a = ['.', '.'] then cleanComponents rooted (c :: a :: as) cs
        else cleanComponents rooted as cs
    else cleanComponents rooted (c :: acc) cs

/-- `filepath.Clean`. -/
def clean (p : GoStr) : GoStr :=
  if p = [] then ['.']
  else
    let rooted := isAbs p
    let comps := cleanComponents rooted [] (splitOnChar '/' p)
    if rooted then '/' :: joinChar '/' comps
    else if comps = [] then ['.']
    else joinChar '/' comps

/-- `filepath.Join` on two elements: join the non-empty elements with a
separator and clean the result; all-empty input yields the empty string. -/
def goJoin (a b : GoStr) : GoStr :=
  if a = [] ∧ b = [] then []
  else if a = [] then clean b
  else if b = [] then clean a
  else clean (a ++ '/' :: b)

/-- `filepath.Abs` with the process working directory `cwd` made explicit:
an absolute path is cleaned, a relative one is joined to `cwd`. -/
def goAbs (cwd p : GoStr) : GoStr :=
  if isAbs p then clean p else goJoin cwd p

/-- The path elements of a cleaned path, as used by `filepath.Rel`'s
element scan: the root path and the empty string have no elements. -/
def relComponents (p : GoStr) : List GoStr :=
  if p = [] then []
  else if p = ['/'] then []
  else if isAbs p then (splitOnChar '/' p).tail
  else splitOnChar '/' p

/-- Strip the longest common leading run of equal components
(the first loop of `filepath.Rel`); returns the two leftovers. -/
def stripCommon : List GoStr → List GoStr → List GoStr × List GoStr
  | [], ts => ([], ts)
  | bs, [] => (bs, [])
  | b :: bs, t :: ts =>
    if b = t then stripCommon bs ts else (b :: bs, t :: ts)

/-- `filepath.Rel base targ` (Unix: no volume names), `none` on error. -/
def goRel (basepath targpath : GoStr) : Option GoStr :=
  let base := clean basepath
  let targ := clean targpath
  if targ = base then some ['.']
  else
    let base := if base = ['.'] then [] else base
    if isAbs base ≠ isAbs targ then none
    else
      let p := stripCommon (relComponents base) (relComponents targ)
      if p.1.head? = some ['.', '.'] then none
      else if p.1 ≠ [] then
        let ups := joinChar '/' (List.replicate p.1.length ['.', '.'])
        some (if p.2 = [] then ups else ups ++ '/' :: joinChar '/' p.2)
      else some (joinChar '/' p.2)

/-- `strings.Contains(s, "..")`. -/
def containsDotDot (s : GoStr) : Bool := decide (['.', '.'] <:+: s)

/-! ## The FTP host codecs (`pkg/ftp`, `ParseHost` / `GenerateHost`)

`ParseHost` indexes `tokens[:4]`, `tokens[4]` and `tokens[5]` without a
length check; with fewer than six comma-separated fields the Go code
panics (index out of range), embedded as `none`.  `GenerateHost` likewise
indexes `tokens[1]` and panics without a colon in its argument. -/
def ParseHost (ports : GoStr) : Option GoStr :=
  let tokens := splitOnChar ',' ports
  if 6 ≤ tokens.length then
    let host := joinChar '.' (tokens.take 4)
    let base1 := (atoi (tokens.getD 4 [])).getD 0
    let base0 := (atoi (tokens.getD 5 [])).getD 0
    some (host ++ ':' :: itoaInt (base1 * 256 + base0))
  else none

def GenerateHost (hostport : GoStr) : Option GoStr :=
  let tokens := splitOnChar ':' hostport
  if 2 ≤ tokens.length then
    let ips := splitOnChar '.' (tokens.headD [])
    let port := (atoi (tokens.getD 1 [])).getD 0
    some (joinChar ',' ips ++ ',' :: itoaInt (Int.tdiv port 256) ++
      ',' :: itoaInt (Int.tmod port 256))
  else none

/-! ## Authorization model (`config` package)

Users and groups as loaded from the YAML credential store, plus the
zero-configuration default that authenticates everyone into one home
directory with unrestricted permissions.  The bcrypt comparison
(`bcrypt.CompareHashAndPassword`) is an external library; the embedding
takes it as an explicit function parameter `bc` wherever `Auth` is
called.  The one fact about it the development relies on is documented at
`bcRejecting` below. -/
structure yamlUserEntry where
  Home : GoStr
  Hash : GoStr
  RawPassword : GoStr
  UserGroup : GoStr
  deriving DecidableEq, Repr

structure yamlGroupEntry where
  CreateFlags : List GoStr
  HandleFlags : List GoStr
  DeleteFlags : List GoStr
  deriving DecidableEq, Repr

/-- `yamlUserEntry.Auth`: an entry with no hash and no raw password
authenticates unconditionally; otherwise the supplied password is checked
against the stored hash by bcrypt (`bc`). -/
def yamlUserEntry.Auth (bc : GoStr → GoStr → Bool) (u : yamlUserEntry)
    (password : GoStr) : Bool :=
  if u.Hash = [] ∧ u.RawPassword = [] then true else bc u.Hash password

def yamlGroupEntry.CanCreateFile (g : yamlGroupEntry) (_path : GoStr) : Bool :=
  g.CreateFlags.any (fun k => decide (k = gs "file"))

def yamlGroupEntry.CanCreateDir (g : yamlGroupEntry) (_path : GoStr) : Bool :=
  g.CreateFlags.any (fun k => decide (k = gs "dir"))

def yamlGroupEntry.CanListDir (g : yamlGroupEntry) (_path : GoStr) : Bool :=
  g.HandleFlags.any (fun k => decide (k = gs "dir"))

def yamlGroupEntry.CanEditFile (g : yamlGroupEntry) (_path : GoStr) : Bool :=
  g.HandleFlags.any (fun k => decide (k = gs "file"))

def yamlGroupEntry.CanDeleteFile (g : yamlGroupEntry) (_path : GoStr) : Bool :=
  g.DeleteFlags.any (fun k => decide (k = gs "file"))

def yamlGroupEntry.CanDeleteDir (g : yamlGroupEntry) (_path : GoStr) : Bool :=
  g.DeleteFlags.any (fun k => decide (k = gs "dir"))

/-- Go map lookup (`m[name]` with the `ok` flag). -/
def findAssoc {α : Type} : List (GoStr × α) → GoStr → Option α
  | [], _ => none
  | (k, v) :: rest, name => if k = name then some v else findAssoc rest name

/-- The two `FTPUserConfig` implementations: the zero-configuration
default (`NewDefaultConfig`) and the YAML store. -/
inductive FTPUserConfig where
  | default (basedir : GoStr)
  | yaml (users : List (GoStr × yamlUserEntry))
         (groups : List (GoStr × yamlGroupEntry))
  deriving DecidableEq, Repr

/-- An `FTPUser` value as handed out by `FindUser`. -/
inductive FTPUser where
  | default (basedir : GoStr)
  | yaml (entry : yamlUserEntry) (groups : List (GoStr × yamlGroupEntry))
  deriving DecidableEq, Repr

/-- An `FTPGroup` value as handed out by `FindGroup` / `user.Group()`. -/
inductive FTPGroup where
  | default
  | yamlG (g : yamlGroupEntry)
  deriving DecidableEq, Repr

/-- `FindUser`: the default configuration matches every name; the YAML
configuration looks the name up and hands out a Go `nil` (here `none`)
when absent. -/
def FTPUserConfig.FindUser : FTPUserConfig → GoStr → Option FTPUser
  | .default basedir, _ => some (.default basedir)
  | .yaml users groups, name =>
    (findAssoc users name).map (fun e => .yaml e groups)

def FTPUserConfig.FindGroup : FTPUserConfig → GoStr → Option FTPGroup
  | .default _, _ => some .default
  | .yaml _ groups, name => (findAssoc groups name).map .yamlG

def FTPUser.HomeDir : FTPUser → GoStr
  | .default basedir => basedir
  | .yaml e _ => e.Home

def FTPUser.Auth (bc : GoStr → GoStr → Bool) : FTPUser → GoStr → Bool
  | .default _, _ => true
  | .yaml e _, password => e.Auth bc password

/-- `user.Group()`; the YAML implementation can return Go `nil`. -/
def FTPUser.Group : FTPUser → Option FTPGroup
  | .default _ => some .default
  | .yaml e groups => (findAssoc groups e.UserGroup).map .yamlG

def FTPGroup.CanCreateFile : FTPGroup → GoStr → Bool
  | .default, _ => true
  | .yamlG g, path => g.CanCreateFile path

def FTPGroup.CanListDir : FTPGroup → GoStr → Bool
  | .default, _ => true
  | .yamlG g, path => g.CanListDir path

/-! ## Session state, effects and the command handlers
(`pkg/ftp/handler` and the `ContextualConn` of `pkg/ftp`)

A handler's externally visible behaviour is its trace of effects —
responses written to the control connection, the brute-force sleep, data
channel resets and rendezvous, filesystem writes — plus the session state
it leaves behind.  A Go panic (out-of-range index, nil dereference)
aborts the handler and the session; it is the `crash` outcome and carries
the effects emitted before the panic.  Server-side logging (`conn.Log`)
has no protocol-visible effect and is not traced. -/
structure SessionState where
  Dir : GoStr
  User : GoStr
  TransferType : GoStr
  selectedUser : GoStr
  keepAlive : Bool
  deriving DecidableEq, Repr

inductive Effect where
  | respond (code : Nat) (params : List GoStr)
  | sleep (ns : Nat)
  | reset
  | setPassive (host : GoStr)
  | setActive (host : GoStr)
  | fsWrite (path : GoStr) (data : GoStr)
  deriving DecidableEq, Repr

inductive HRes where
  | ok (st : SessionState) (trace : List Effect)
  | crash (trace : List Effect)
  deriving DecidableEq, Repr

/-- The handler's external collaborators, made explicit: the bcrypt
comparison, the process working directory (read by `filepath.Abs`), file
`stat` results (formatted modification time and size), file contents,
the three listing producers, the data-connection rendezvous outcomes and
the passive-port announcement. -/
structure Env where
  bc : GoStr → GoStr → Bool
  cwd : GoStr
  statt : GoStr → Option (GoStr × Int)
  readFile : GoStr → Option GoStr
  lsRaw : GoStr → Option GoStr
  lsLong : GoStr → Option GoStr
  eplf : GoStr → Option GoStr
  recvData : Option GoStr
  sendOk : Bool
  passivePort : Option Int
  writeOk : GoStr → GoStr → Bool

/-- Configuration carried by the `Handler` value built in `New`. -/
structure HandlerSrc where
  EnableEPLF : Bool
  PassiveServerHost : GoStr
  SystemName : GoStr
  MOTD : GoStr

def StatusTransferReady : Nat := 125

def StatusOK : Nat := 200

def StatusFileInfo : Nat := 213

def StatusSystemType : Nat := 215

def StatusServiceReady : Nat := 220

def StatusTransferDone : Nat := 226

def StatusPassiveMode : Nat := 227

def StatusAuthenticated : Nat := 230

def StatusWorkingDirectory : Nat := 257

def StatusNeedPassword : Nat := 331

def StatusNeedAccount : Nat := 332

def StatusTransferAbort : Nat := 426

def StatusActionNotTaken : Nat := 450

def StatusLocalError : Nat := 451

def StatusSyntaxError : Nat := 500

def StatusSyntaxParamError : Nat := 501

def StatusNotImplemented : Nat := 502

def StatusNotLoggedIn : Nat := 530

/-- `badLoginDelay = 3 * time.Second`, in nanoseconds. -/
def badLoginDelay : Nat := 3 * 1000000000

def defaultTransferType : GoStr := gs "AN"

/-- `ContextualConn.GetRelativePath`: absolute arguments replace the
current directory, relative ones are joined to it; the result is
canonicalized and its location relative to the authenticated user's home
is computed; a relative location containing `..` fails.  A Go `nil` user
(name not in the store) would make `.HomeDir()` panic: `none`. -/
def GetRelativePath (cwd : GoStr) (cfg : FTPUserConfig) (st : SessionState)
    (p2 : GoStr) : Option (GoStr × Bool) :=
  match cfg.FindUser st.User with
  | none => none
  | some u =>
    let p1 := if isAbs p2 then p2 else goJoin st.Dir p2
    let p1 := goAbs cwd p1
    match goRel u.HomeDir p1 with
    | none => some (st.Dir, false)
    | some rel =>
      if containsDotDot rel then some (st.Dir, false) else some (p1, true)

/-- `tcp.Conn.Receive`: transfer-ready response, rendezvous, then either
abort or completion response with the received payload. -/
def connReceive (env : Env) : List Effect × Option GoStr :=
  match env.recvData with
  | none => ([.respond StatusTransferReady [], .respond StatusTransferAbort []], none)
  | some d =>
    ([.respond StatusTransferReady [], .respond StatusTransferDone []], some d)

/-- `tcp.Conn.Send`. -/
def connSend (env : Env) (_data : GoStr) : List Effect × Bool :=
  if env.sendOk then
    ([.respond StatusTransferReady [], .respond StatusTransferDone []], true)
  else
    ([.respond StatusTransferReady [], .respond StatusTransferAbort []], false)

/-- The `transferTypes` rune table. -/
def transferTypes (r : Char) : Option GoStr :=
  if r = 'A' then some (gs "ASCII")
  else if r = 'E' then some (gs "EBCDIC")
  else if r = 'I' then some (gs "BINARY")
  else if r = 'L' then some (gs "LOCAL FORMAT")
  else if r = 'N' then some (gs "NON PRINT")
  else if r = 'T' then some (gs "TELNET")
  else if r = 'C' then some (gs "ASA CARRIAGE CONTROL")
  else none

/-- `encodeTransferType`: describes a transfer-type code, `"INVALID"` for
an unrecognized one.  Indexing `modeRunes[0]` panics on the empty
argument: `none`. -/
def encodeTransferType (tt : GoStr) : Option GoStr :=
  match tt with
  | [] => none
  | r0 :: rest =>
    match transferTypes r0 with
    | none => some (gs "INVALID")
    | some baseMode =>
      match rest with
      | [r1] =>
        match transferTypes r1 with
        | none => some (gs "INVALID")
        | some extMode => some (baseMode ++ ' ' :: extMode)
      | _ => some (baseMode ++ ' ' :: gs "NON PRINT")

/-- `encodeText`: UNIX line endings to network line endings
(the `mode` parameter is accepted and ignored, as in the source). -/
def encodeText : GoStr → GoStr → GoStr
  | [], _ => []
  | c :: rest, mode =>
    if c = '\n' then '\r' :: '\n' :: encodeText rest mode
    else c :: encodeText rest mode

/-- `handleCommandUser`. -/
def handleCommandUser (cfg : FTPUserConfig) (st : SessionState)
    (cmdData : GoStr) : HRes :=
  match cfg.FindUser cmdData with
  | some _ =>
    .ok { st with selectedUser := cmdData } [.respond StatusNeedPassword []]
  | none => .ok st [.respond StatusNotLoggedIn []]

/-- `handleCommandPassword`. -/
def handleCommandPassword (env : Env) (cfg : FTPUserConfig)
    (st : SessionState) (cmdData : GoStr) : HRes :=
  match cfg.FindUser st.selectedUser with
  | some u =>
    if u.Auth env.bc cmdData then
      .ok { st with User := st.selectedUser, Dir := u.HomeDir }
        [.respond StatusAuthenticated []]
    else
      .ok st [.sleep badLoginDelay, .respond StatusNotLoggedIn []]
  | none => .ok st [.respond StatusNeedAccount []]

/-- `handleCommandSystemType`. -/
def handleCommandSystemType (src : HandlerSrc) (st : SessionState)
    (_cmdData : GoStr) : HRes :=
  match encodeTransferType defaultTransferType with
  | none => .crash []
  | some enc => .ok st [.respond StatusSystemType [src.SystemName, enc]]

/-- `handleCommandPrintDirectory`; a missing user or group makes the Go
code dereference `nil` and panic. -/
def handleCommandPrintDirectory (cfg : FTPUserConfig) (st : SessionState)
    (_cmdData : GoStr) : HRes :=
  match cfg.FindUser st.selectedUser with
  | none => .crash []
  | some u =>
    match u.Group with
    | none => .crash []
    | some g =>
      if !g.CanListDir st.Dir then .ok st [.respond StatusActionNotTaken []]
      else .ok st [.respond StatusWorkingDirectory [st.Dir]]

/-- `handleCommandChangeDirectory`. -/
def handleCommandChangeDirectory (env : Env) (cfg : FTPUserConfig)
    (st : SessionState) (cmdData : GoStr) : HRes :=
  match GetRelativePath env.cwd cfg st cmdData with
  | none => .crash []
  | some (_, false) => .ok st [.respond StatusActionNotTaken []]
  | some (path, true) =>
    .ok { st with Dir := path } [.respond StatusWorkingDirectory [path]]

/-- `handleCommandDataType`. -/
def handleCommandDataType (st : SessionState) (cmdData : GoStr) : HRes :=
  match encodeTransferType cmdData with
  | none => .crash []
  | some enc =>
    if enc = gs "INVALID" then .ok st [.respond StatusSyntaxParamError []]
    else
      .ok { st with TransferType := cmdData }
        [.respond StatusOK [gs "TYPE set to " ++ enc]]

/-- `handleCommandModificationTime`. -/
def handleCommandModificationTime (env : Env) (cfg : FTPUserConfig)
    (st : SessionState) (cmdData : GoStr) : HRes :=
  match GetRelativePath env.cwd cfg st cmdData with
  | none => .crash []
  | some (_, false) => .ok st [.respond StatusActionNotTaken []]
  | some (path, true) =>
    match env.statt path with
    | none => .ok st [.respond StatusActionNotTaken []]
    | some (modTime, _) => .ok st [.respond StatusFileInfo [modTime]]

/-- `handleCommandFileSize`. -/
def handleCommandFileSize (env : Env) (cfg : FTPUserConfig)
    (st : SessionState) (cmdData : GoStr) : HRes :=
  match GetRelativePath env.cwd cfg st cmdData with
  | none => .crash []
  | some (_, false) => .ok st [.respond StatusActionNotTaken []]
  | some (path, true) =>
    match env.statt path with
    | none => .ok st [.respond StatusActionNotTaken []]
    | some (_, size) => .ok st [.respond StatusFileInfo [itoaInt size]]

/-- `handleCommandRetrieveFile`. -/
def handleCommandRetrieveFile (env : Env) (cfg : FTPUserConfig)
    (st : SessionState) (cmdData : GoStr) : HRes :=
  match GetRelativePath env.cwd cfg st cmdData with
  | none => .crash []
  | some (_, false) => .ok st [.respond StatusActionNotTaken []]
  | some (path, true) =>
    match env.readFile path with
    | none => .ok st [.respond StatusActionNotTaken []]
    | some buffer => .ok st (connSend env buffer).1

/-- `handleCommandStoreFile`. -/
def handleCommandStoreFile (env : Env) (cfg : FTPUserConfig)
    (st : SessionState) (cmdData : GoStr) : HRes :=
  match GetRelativePath env.cwd cfg st cmdData with
  | none => .crash []
  | some (_, false) => .ok st [.respond StatusActionNotTaken []]
  | some (path, true) =>
    match cfg.FindUser st.selectedUser with
    | none => .crash []
    | some u =>
      match u.Group with
      | none => .crash []
      | some g =>
        if !g.CanCreateFile path then .ok st [.respond StatusActionNotTaken []]
        else
          match connReceive env with
          | (eff, none) => .ok st eff
          | (eff, some data) =>
            if env.writeOk path data then .ok st (eff ++ [.fsWrite path data])
            else
              .ok st (eff ++ [.fsWrite path data,
                .respond StatusActionNotTaken []])

/-- `handleCommandPassiveMode`. -/
def handleCommandPassiveMode (env : Env) (src : HandlerSrc)
    (st : SessionState) (_cmdData : GoStr) : HRes :=
  match env.passivePort with
  | none =>
    .ok st [.reset, .setPassive src.PassiveServerHost, .reset,
      .respond StatusActionNotTaken []]
  | some port =>
    match GenerateHost (src.PassiveServerHost ++ ':' :: itoaInt port) with
    | none => .crash [.reset, .setPassive src.PassiveServerHost]
    | some hostport =>
      .ok st [.reset, .setPassive src.PassiveServerHost,
        .respond StatusPassiveMode [hostport]]

/-- `handleCommandPort`: `ParseHost` is evaluated after `Reset` and
panics on a malformed argument, crashing the handler. -/
def handleCommandPort (st : SessionState) (cmdData : GoStr) : HRes :=
  match ParseHost cmdData with
  | none => .crash [.reset]
  | some host =>
    .ok st [.reset, .setActive host,
      .respond StatusOK [gs "PORT Command successfull"]]

/-- `handleCommandListRaw` (NLST). -/
def handleCommandListRaw (env : Env) (cfg : FTPUserConfig)
    (st : SessionState) (_cmdData : GoStr) : HRes :=
  match cfg.FindUser st.selectedUser with
  | none => .crash []
  | some u =>
    match u.Group with
    | none => .crash []
    | some g =>
      if !g.CanListDir st.Dir then .ok st [.respond StatusActionNotTaken []]
      else
        match env.lsRaw st.Dir with
        | none => .ok st [.respond StatusLocalError []]
        | some output =>
          .ok st (connSend env (encodeText output st.TransferType)).1

/-- `handleCommandList` (LIST). -/
def handleCommandList (env : Env) (src : HandlerSrc) (cfg : FTPUserConfig)
    (st : SessionState) (_cmdData : GoStr) : HRes :=
  match cfg.FindUser st.selectedUser with
  | none => .crash []
  | some u =>
    match u.Group with
    | none => .crash []
    | some g =>
      if !g.CanListDir st.Dir then .ok st [.respond StatusActionNotTaken []]
      else if src.EnableEPLF then
        match env.eplf st.Dir with
        | none => .ok st [.respond StatusLocalError []]
        | some buffer => .ok st (connSend env buffer).1
      else
        match env.lsLong st.Dir with
        | none => .ok st [.respond StatusLocalError []]
        | some output =>
          .ok st (connSend env (encodeText output st.TransferType)).1

/-- `handleCommandQuit`: responds and returns.  It does not touch
`keepAlive`, which nothing in the handler package ever sets to false. -/
def handleCommandQuit (st : SessionState) (_cmdData : GoStr) : HRes :=
  .ok st [.respond StatusOK [gs "Connection closing"]]

/-! ## The command dispatcher (`Handler.Handle`) -/
/-- `strings.ToUpper`, on the ASCII range (command verbs are ASCII). -/
def toUpperChar (c : Char) : Char :=
  if 'a' ≤ c ∧ c ≤ 'z' then Char.ofNat (c.toNat - 32) else c

def goToUpper (s : GoStr) : GoStr := s.map toUpperChar

/-- The `defaultCommandHandlers` table: look the upper-cased verb up and
run its handler; `none` for a verb outside the table. -/
def dispatchHandle (env : Env) (src : HandlerSrc) (cfg : FTPUserConfig)
    (cmdName cmdData : GoStr) (st : SessionState) : Option HRes :=
  if cmdName = gs "USER" then some (handleCommandUser cfg st cmdData)
  else if cmdName = gs "PASS" then
    some (handleCommandPassword env cfg st cmdData)
  else if cmdName = gs "SYST" then
    some (handleCommandSystemType src st cmdData)
  else if cmdName = gs "PWD" then
    some (handleCommandPrintDirectory cfg st cmdData)
  else if cmdName = gs "CWD" then
    some (handleCommandChangeDirectory env cfg st cmdData)
  else if cmdName = gs "TYPE" then some (handleCommandDataType st cmdData)
  else if cmdName = gs "MDTM" then
    some (handleCommandModificationTime env cfg st cmdData)
  else if cmdName = gs "SIZE" then
    some (handleCommandFileSize env cfg st cmdData)
  else if cmdName = gs "RETR" then
    some (handleCommandRetrieveFile env cfg st cmdData)
  else if cmdName = gs "STOR" then
    some (handleCommandStoreFile env cfg st cmdData)
  else if cmdName = gs "PASV" then
    some (handleCommandPassiveMode env src st cmdData)
  else if cmdName = gs "PORT" then some (handleCommandPort st cmdData)
  else if cmdName = gs "NLST" then
    some (handleCommandListRaw env cfg st cmdData)
  else if cmdName = gs "LIST" then
    some (handleCommandList env src cfg st cmdData)
  else if cmdName = gs "QUIT" then some (handleCommandQuit st cmdData)
  else none

/-- Outcome of a session run: the loop returned (control-connection read
error, i.e. the line script was exhausted, or `keepAlive` went false), or
a handler panicked and the session crashed. -/
inductive RunResult where
  | finished (trace : List Effect)
  | crashed (trace : List Effect)
  deriving DecidableEq, Repr

def RunResult.prepend (tr : List Effect) : RunResult → RunResult
  | .finished t => .finished (tr ++ t)
  | .crashed t => .crashed (tr ++ t)

/-- The command loop of `Handler.Handle`, reading one line per iteration
from the `lines` script (an exhausted script is the read error / EOF that
terminates the session).  Each iteration splits the line on spaces,
upper-cases the verb, applies the authentication gate, looks the verb up
and runs the handler. -/
def runSession (env : Env) (src : HandlerSrc) (cfg : FTPUserConfig) :
    SessionState → List GoStr → RunResult
  | _, [] => .finished []
  | st, line :: rest =>
    if !st.keepAlive then .finished []
    else
      let cmdTokens := splitOnChar ' ' line
      if cmdTokens.length < 1 then
        .prepend [.respond StatusSyntaxError []]
          (runSession env src cfg st rest)
      else
        let cmdName := goToUpper (cmdTokens.headD [])
        let cmdData := joinChar ' ' cmdTokens.tail
        if st.User = [] ∧ cmdName ≠ gs "USER" ∧ cmdName ≠ gs "PASS" then
          .prepend [.respond StatusNeedAccount []]
            (runSession env src cfg st rest)
        else
          match dispatchHandle env src cfg cmdName cmdData st with
          | none =>
            .prepend [.respond StatusNotImplemented []]
              (runSession env src cfg st rest)
          | some (.crash tr) => .crashed tr
          | some (.ok st' tr) => .prepend tr (runSession env src cfg st' rest)

/-- `Handler.Handle`: service-ready greeting, then the command loop over
the session state built in `ConnectionFactory.Accept`. -/
def handle (env : Env) (src : HandlerSrc) (cfg : FTPUserConfig)
    (lines : List GoStr) : RunResult :=
  .prepend [.respond StatusServiceReady [src.MOTD]]
    (runSession env src cfg
      { Dir := gs "/tmp", User := [], TransferType := gs "AN",
        selectedUser := [], keepAlive := true } lines)

/-! ## Concrete fixtures used by witnesses and counterexamples -/
/-- A stand-in for `bcrypt.CompareHashAndPassword` at the inputs the
claims exercise.  The only property relied upon is bcrypt's documented
behaviour on a malformed stored hash: an empty string is not a
well-formed bcrypt hash (`ErrHashTooShort`), so the comparison fails for
every password.  Matching against a well-formed hash is never evaluated
by any claim, so this model rejects uniformly. -/
def bcRejecting : GoStr → GoStr → Bool := fun _ _ => false

def trivEnv : Env :=
  { bc := bcRejecting, cwd := gs "/", statt := fun _ => none,
    readFile := fun _ => none, lsRaw := fun _ => none,
    lsLong := fun _ => none, eplf := fun _ => none, recvData := none,
    sendOk := false, passivePort := none, writeOk := fun _ _ => false }

def trivSrc : HandlerSrc :=
  { EnableEPLF := false, PassiveServerHost := gs "127.0.0.1",
    SystemName := gs "UNIX", MOTD := gs "Welcome" }

/-- The session state built in `ConnectionFactory.Accept`. -/
def initState : SessionState :=
  { Dir := gs "/tmp", User := [], TransferType := gs "AN",
    selectedUser := [], keepAlive := true }

/-- An authenticated session at home `/srv` under the default config. -/
def authState : SessionState :=
  { Dir := gs "/srv", User := gs "anon", TransferType := gs "AN",
    selectedUser := gs "anon", keepAlive := true }

/-- The well-formedness predicate for emitted path components of a rooted
clean: non-empty, not `.`, not `..`, separator-free. -/
def goodComp (x : GoStr) : Prop :=
  x ≠ [] ∧ x ≠ ['.'] ∧ x ≠ ['.', '.'] ∧ '/' ∉ x

/-- "The path `p` lies inside the home directory": it is the cleaned home
itself or extends it by a separator. -/
def isUnder (home p : GoStr) : Prop :=
  p = clean home ∨
    (if clean home = ['/'] then ['/'] else clean home ++ ['/']) <+: p

/-! ## Theorems -/

theorem splitOnChar_ne_nil (c : Char) (s : GoStr) : splitOnChar c s ≠ [] := by
  induction s with
  | nil => simp [splitOnChar]
  | cons x xs ih =>
    simp only [splitOnChar]
    split
    · simp
    · split <;> simp_all

theorem joinChar_cons_cons (c : Char) (a y : GoStr) (ys : List GoStr) :
    joinChar c (a :: y :: ys) = a ++ c :: joinChar c (y :: ys) := rfl

theorem joinChar_splitOnChar (c : Char) (s : GoStr) :
    joinChar c (splitOnChar c s) = s := by
  induction s with
  | nil => rfl
  | cons x xs ih =>
    cases hs : splitOnChar c xs with
    | nil => exact absurd hs (splitOnChar_ne_nil c xs)
    | cons y ys =>
      rw [hs] at ih
      simp only [splitOnChar, hs]
      split
      · rename_i h
        rw [joinChar_cons_cons, ih, h]
        rfl
      · cases ys with
        | nil =>
          simp only [joinChar] at ih ⊢
          rw [ih]
        | cons z zs =>
          rw [joinChar_cons_cons] at ih
          rw [joinChar_cons_cons, List.cons_append, ih]

/-- Splitting a separator-free string yields a single token. -/
theorem splitOnChar_of_not_mem {c : Char} {s : GoStr} (h : c ∉ s) :
    splitOnChar c s = [s] := by
  induction s with
  | nil => rfl
  | cons x xs ih =>
    simp only [List.mem_cons, not_or] at h
    simp only [splitOnChar]
    rw [if_neg (fun hxc => h.1 hxc.symm)]
    rw [ih h.2]

/-- Splitting around the first separator occurrence. -/
theorem splitOnChar_append {c : Char} {xs : GoStr} (ys : GoStr) (h : c ∉ xs) :
    splitOnChar c (xs ++ c :: ys) = xs :: splitOnChar c ys := by
  induction xs with
  | nil => simp [splitOnChar]
  | cons x xt ih =>
    simp only [List.mem_cons, not_or] at h
    simp only [List.cons_append, splitOnChar]
    rw [if_neg (fun hxc => h.1 hxc.symm)]
    simp only [List.append_eq]
    rw [ih h.2]

theorem toDigitsRevGo_congr : ∀ f1 f2 n, n < f1 → n < f2 →
    toDigitsRevGo f1 n = toDigitsRevGo f2 n := by
  intro f1
  induction f1 with
  | zero => omega
  | succ f ih =>
    intro f2 n h1 h2
    cases f2 with
    | zero => omega
    | succ g =>
      by_cases h : n < 10
      · simp [toDigitsRevGo, h]
      · have hlt : n / 10 < n := Nat.div_lt_self (by omega) (by omega)
        simp only [toDigitsRevGo, if_neg h]
        rw [ih g (n / 10) (by omega) (by omega)]

/-- The recursion equation of `toDigitsRev`. -/
theorem toDigitsRev_eq (n : Nat) :
    toDigitsRev n =
      if n < 10 then [digitChar n]
      else digitChar (n % 10) :: toDigitsRev (n / 10) := by
  show toDigitsRevGo (n + 1) n = _
  by_cases h : n < 10
  · simp [toDigitsRevGo, h]
  · have hlt : n / 10 < n := Nat.div_lt_self (by omega) (by omega)
    simp only [toDigitsRevGo, if_neg h]
    rw [toDigitsRevGo_congr n (n / 10 + 1) (n / 10) (by omega) (by omega)]
    rfl

theorem digitChar_spec : ∀ k : Nat, k < 10 →
    isDigitChar (digitChar k) = true ∧ digitVal (digitChar k) = k ∧
    digitChar k ≠ '-' ∧ digitChar k ≠ '+' ∧ digitChar k ≠ '.' ∧
    digitChar k ≠ ',' ∧ digitChar k ≠ ':' ∧ digitChar k ≠ '/' ∧
    digitChar k ≠ ' ' := by decide

theorem toDigitsRev_ne_nil (n : Nat) : toDigitsRev n ≠ [] := by
  rw [toDigitsRev_eq]
  split <;> simp

theorem itoaNat_ne_nil (n : Nat) : itoaNat n ≠ [] := by
  intro h
  exact toDigitsRev_ne_nil n (by simpa [itoaNat] using congrArg List.reverse h)

theorem toDigitsRev_digits (n : Nat) : ∀ ch ∈ toDigitsRev n, isDigitChar ch = true := by
  induction n using Nat.strong_induction_on with
  | _ n ih =>
    rw [toDigitsRev_eq]
    split
    · rename_i h
      intro ch hch
      simp only [List.mem_singleton] at hch
      subst hch
      exact (digitChar_spec n h).1
    · rename_i h
      intro ch hch
      simp only [List.mem_cons] at hch
      rcases hch with rfl | hch
      · exact (digitChar_spec (n % 10) (Nat.mod_lt n (by omega))).1
      · exact ih (n / 10) (Nat.div_lt_self (by omega) (by omega)) ch hch

theorem itoaNat_digits (n : Nat) : ∀ ch ∈ itoaNat n, isDigitChar ch = true := by
  intro ch hch
  exact toDigitsRev_digits n ch (List.mem_reverse.mp hch)

theorem atoiDigits_append (acc : Nat) (xs ys : GoStr) :
    atoiDigits acc (xs ++ ys) =
      (atoiDigits acc xs).bind (fun a => atoiDigits a ys) := by
  induction xs generalizing acc with
  | nil => rfl
  | cons x xt ih =>
    simp only [List.cons_append, atoiDigits]
    split
    · exact ih _
    · rfl

theorem atoiDigits_single (a : Nat) (ch : Char) :
    atoiDigits a [ch] =
      if isDigitChar ch then some (a * 10 + digitVal ch) else none := rfl

theorem atoiDigits_itoaNat (acc n : Nat) :
    atoiDigits acc (itoaNat n) = some (acc * 10 ^ (itoaNat n).length + n) := by
  induction n using Nat.strong_induction_on generalizing acc with
  | _ n ih =>
    by_cases h : n < 10
    · have : itoaNat n = [digitChar n] := by
        simp only [itoaNat]
        rw [toDigitsRev_eq, if_pos h]
        rfl
      rw [this]
      simp [atoiDigits, (digitChar_spec n h).1, (digitChar_spec n h).2.1,
        Nat.mul_comm]
    · have hrw : itoaNat n = itoaNat (n / 10) ++ [digitChar (n % 10)] := by
        simp only [itoaNat]
        rw [toDigitsRev_eq, if_neg h]
        simp
      rw [hrw, atoiDigits_append]
      rw [ih (n / 10) (Nat.div_lt_self (by omega) (by omega)) acc]
      have hd := digitChar_spec (n % 10) (Nat.mod_lt n (by omega))
      rw [Option.some_bind, atoiDigits_single, if_pos hd.1, hd.2.1]
      rw [List.length_append, List.length_singleton]
      congr 1
      rw [pow_succ]
      ring_nf
      omega

theorem atoiNat_itoaNat (n : Nat) : atoiNat (itoaNat n) = some n := by
  have h1 := itoaNat_ne_nil n
  cases hs : itoaNat n with
  | nil => exact absurd hs h1
  | cons x xt =>
    have hdef : atoiNat (x :: xt) = atoiDigits 0 (x :: xt) := rfl
    rw [hdef, ← hs, atoiDigits_itoaNat]
    simp

theorem atoi_itoaNat (n : Nat) : atoi (itoaNat n) = some (n : Int) := by
  cases hs : itoaNat n with
  | nil => exact absurd hs (itoaNat_ne_nil n)
  | cons x xt =>
    have hx : isDigitChar x = true := by
      apply itoaNat_digits n
      rw [hs]; exact List.mem_cons_self x xt
    have hxm : x ≠ '-' := by
      intro h; rw [h] at hx; exact absurd hx (by decide)
    have hxp : x ≠ '+' := by
      intro h; rw [h] at hx; exact absurd hx (by decide)
    simp only [atoi, if_neg hxm, if_neg hxp]
    rw [← hs, atoiNat_itoaNat]
    rfl

/-! ## Claims -/
/-- **C2** (code bug).  The claim says QUIT ends the dispatcher's command
loop.  In `pkg/ftp/handler` it does not: `handleCommandQuit` only writes
the closing response and nothing ever sets `keepAlive` to false, so the
loop reads and handles further commands.  Concretely, a session script
`QUIT` then `SYST` produces the closing response *followed by* a handled
SYST response (the earlier `main.go` revisions `return`ed from the loop on
QUIT, which is what the claim and spec describe). -/
theorem quit_does_not_end_loop :
    runSession trivEnv trivSrc (.default (gs "/srv")) authState
        [gs "QUIT", gs "SYST"] =
      .finished [.respond StatusOK [gs "Connection closing"],
        .respond StatusSystemType [gs "UNIX", gs "ASCII NON PRINT"]] := by
  decide

/-- **C4** (confirmed).  In an unauthenticated session (`GetUser() = ""`),
any command whose upper-cased verb is neither USER nor PASS gets the
"need account" response and its handler is not invoked: the loop iteration
contributes exactly the 332 response and continues with the session state
unchanged. -/
theorem dispatcher_auth_gate (env : Env) (src : HandlerSrc)
    (cfg : FTPUserConfig) (st : SessionState) (line : GoStr)
    (rest : List GoStr) (hk : st.keepAlive = true) (hu : st.User = [])
    (h1 : goToUpper ((splitOnChar ' ' line).headD []) ≠ gs "USER")
    (h2 : goToUpper ((splitOnChar ' ' line).headD []) ≠ gs "PASS") :
    runSession env src cfg st (line :: rest) =
      .prepend [.respond StatusNeedAccount []]
        (runSession env src cfg st rest) := by
  have hlen : ¬ (splitOnChar ' ' line).length < 1 := by
    cases h : splitOnChar ' ' line with
    | nil => exact absurd h (splitOnChar_ne_nil ' ' line)
    | cons a as => simp
  simp only [runSession, hk, Bool.not_true, Bool.false_eq_true, if_false]
  rw [if_neg hlen, if_pos ⟨hu, h1, h2⟩]

/-- Witness for **C4**: an unauthenticated session sending `SYST`. -/
theorem dispatcher_auth_gate_witness :
    runSession trivEnv trivSrc (.default (gs "/srv")) initState [gs "SYST"] =
      .prepend [.respond StatusNeedAccount []]
        (runSession trivEnv trivSrc (.default (gs "/srv")) initState []) :=
  dispatcher_auth_gate trivEnv trivSrc (.default (gs "/srv")) initState
    (gs "SYST") [] rfl rfl (by decide) (by decide)

/-- **C5** (counterexample).  The claim says an empty verb (empty command
line) draws the 500 syntax-error response.  It does not: `strings.Split`
always returns at least one token, so the `len(cmdTokens) < 1` guard is
dead code, and an authenticated session sending an empty line falls
through to the handler-table lookup and gets 502 "not implemented" —
the empty line *is* treated as an unknown command. -/
theorem empty_verb_not_syntax_error :
    runSession trivEnv trivSrc (.default (gs "/srv")) authState [[]] =
        .finished [.respond StatusNotImplemented []] ∧
      runSession trivEnv trivSrc (.default (gs "/srv")) authState [[]] ≠
        .finished [.respond StatusSyntaxError []] := by
  decide

/-- **C5** (amended).  An empty command line is not specially rejected:
the dead `len < 1` guard never fires, so the empty verb goes through the
normal route — "need account" (332) when unauthenticated, "not
implemented" (502) when authenticated — and the loop continues with the
session unchanged, without closing the connection. -/
theorem empty_verb_dispatch (env : Env) (src : HandlerSrc)
    (cfg : FTPUserConfig) (st : SessionState) (rest : List GoStr)
    (hk : st.keepAlive = true) :
    runSession env src cfg st ([] :: rest) =
      .prepend
        [.respond
          (if st.User = [] then StatusNeedAccount else StatusNotImplemented)
          []]
        (runSession env src cfg st rest) := by
  simp only [runSession, hk, Bool.not_true, Bool.false_eq_true, if_false]
  by_cases hu : st.User = []
  · rw [if_neg (by decide), if_pos ⟨hu, by decide, by decide⟩, if_pos hu]
  · rw [if_neg (by decide), if_neg (fun h => hu h.1), if_neg hu]
    rfl

/-- Witness for **C5** (amended): authenticated session, empty line. -/
theorem empty_verb_dispatch_witness :
    runSession trivEnv trivSrc (.default (gs "/srv")) authState [[]] =
      .prepend
        [.respond
          (if authState.User = [] then StatusNeedAccount
           else StatusNotImplemented) []]
        (runSession trivEnv trivSrc (.default (gs "/srv")) authState []) :=
  empty_verb_dispatch trivEnv trivSrc (.default (gs "/srv")) authState [] rfl

/-- **C6** (counterexample).  The claim says an empty stored hash alone
makes `Auth` succeed for every password.  The code's unconditional-accept
guard additionally requires the raw password field to be empty: a user
entry with an empty hash but a non-empty raw password (a store loaded
with `rewrite=false` before hashing) falls through to the bcrypt
comparison against the empty hash, which fails for every password
(see `bcRejecting`). -/
theorem auth_empty_hash_nonempty_raw :
    (yamlUserEntry.Auth bcRejecting
      { Home := gs "/h", Hash := [], RawPassword := gs "secret",
        UserGroup := gs "g" } (gs "anything")) = false ∧
    ({ Home := gs "/h", Hash := [], RawPassword := gs "secret",
       UserGroup := gs "g" } : yamlUserEntry).Hash = [] := by
  decide

/-- **C6** (amended).  For every user record whose stored hash *and*
stored raw password are both empty, `Auth` succeeds for every supplied
password (including the empty one), whatever the bcrypt comparison does. -/
theorem auth_no_credentials (bc : GoStr → GoStr → Bool) (u : yamlUserEntry)
    (pw : GoStr) (h1 : u.Hash = []) (h2 : u.RawPassword = []) :
    u.Auth bc pw = true := by
  simp [yamlUserEntry.Auth, h1, h2]

/-- Witness for **C6** (amended): the anonymous-style entry accepts the
empty password. -/
theorem auth_no_credentials_witness :
    yamlUserEntry.Auth bcRejecting
      { Home := gs "/h", Hash := [], RawPassword := [],
        UserGroup := gs "g" } [] = true :=
  auth_no_credentials bcRejecting _ [] rfl rfl

/-- **C7** (confirmed).  When the pending user exists but the password
fails the credential check, the PASS handler leaves the session state
fully unchanged (in particular the authenticated-user field and the
current directory) and its trace is exactly a sleep of the fixed
`badLoginDelay` — 3 seconds (3·10⁹ ns) — followed by the
"not logged in" (530) response. -/
theorem pass_failure_unchanged (env : Env) (cfg : FTPUserConfig)
    (st : SessionState) (d : GoStr) (u : FTPUser)
    (hfind : cfg.FindUser st.selectedUser = some u)
    (hauth : u.Auth env.bc d = false) :
    handleCommandPassword env cfg st d =
        .ok st [.sleep badLoginDelay, .respond StatusNotLoggedIn []] ∧
      badLoginDelay = 3000000000 := by
  constructor
  · simp [handleCommandPassword, hfind, hauth]
  · rfl

/-- Witness for **C7**: a user with a stored hash, wrong password. -/
theorem pass_failure_unchanged_witness :
    handleCommandPassword trivEnv
        (.yaml [(gs "bob",
          { Home := gs "/home/bob", Hash := gs "$2a$10$abc",
            RawPassword := [], UserGroup := gs "g" })] [])
        { Dir := gs "/tmp", User := [], TransferType := gs "AN",
          selectedUser := gs "bob", keepAlive := true } (gs "wrong") =
      .ok { Dir := gs "/tmp", User := [], TransferType := gs "AN",
            selectedUser := gs "bob", keepAlive := true }
        [.sleep badLoginDelay, .respond StatusNotLoggedIn []] :=
  (pass_failure_unchanged trivEnv
    (.yaml [(gs "bob",
      { Home := gs "/home/bob", Hash := gs "$2a$10$abc",
        RawPassword := [], UserGroup := gs "g" })] [])
    { Dir := gs "/tmp", User := [], TransferType := gs "AN",
      selectedUser := gs "bob", keepAlive := true } (gs "wrong")
    (.yaml
      { Home := gs "/home/bob", Hash := gs "$2a$10$abc",
        RawPassword := [], UserGroup := gs "g" } [])
    (by decide) (by decide)).1

/-- **C8** (counterexample).  The claim says every unrecognized TYPE
argument — the empty one included — draws the 501 response.  The empty
argument instead panics: `encodeTransferType` indexes `modeRunes[0]`
without a length check, so `TYPE` with no argument crashes the handler
and no 501 is sent. -/
theorem type_empty_arg_crashes :
    handleCommandDataType authState [] = .crash [] ∧
      handleCommandDataType authState [] ≠
        .ok authState [.respond StatusSyntaxParamError []] := by
  decide

/-- **C8** (amended).  For every *non-empty* TYPE argument: an
unrecognized code (one `encodeTransferType` maps to `"INVALID"`) draws
the 501 "syntax error in parameters" response and leaves the selected
transfer type unchanged, and a recognized code sets the transfer type to
the argument; the empty argument instead crashes the handler. -/
theorem type_nonempty_behavior (st : SessionState) (d : GoStr)
    (hne : d ≠ []) :
    (encodeTransferType d = some (gs "INVALID") →
      handleCommandDataType st d =
        .ok st [.respond StatusSyntaxParamError []]) ∧
    (∀ enc, encodeTransferType d = some enc → enc ≠ gs "INVALID" →
      handleCommandDataType st d =
        .ok { st with TransferType := d }
          [.respond StatusOK [gs "TYPE set to " ++ enc]]) := by
  constructor
  · intro h
    simp [handleCommandDataType, h]
  · intro enc h henc
    simp [handleCommandDataType, h, henc]

/-- Witness for **C8** (amended): `TYPE I` is accepted, `TYPE X` is not. -/
theorem type_nonempty_behavior_witness :
    handleCommandDataType authState (gs "I") =
        .ok { authState with TransferType := gs "I" }
          [.respond StatusOK [gs "TYPE set to " ++ gs "BINARY NON PRINT"]] ∧
      handleCommandDataType authState (gs "X") =
        .ok authState [.respond StatusSyntaxParamError []] :=
  ⟨(type_nonempty_behavior authState (gs "I") (by decide)).2
      (gs "BINARY NON PRINT") (by decide) (by decide),
    (type_nonempty_behavior authState (gs "X") (by decide)).1 (by decide)⟩

/-- **C9** (confirmed).  A STOR whose path resolves (inside the home
directory) but whose user's group lacks the file-create permission
produces exactly the 450 "action not taken" response: no transfer-ready
response, no data-channel receive, no filesystem write effect, and the
session state is unchanged. -/
theorem stor_denied_no_write (env : Env) (cfg : FTPUserConfig)
    (st : SessionState) (d p : GoStr) (u : FTPUser) (g : FTPGroup)
    (hpath : GetRelativePath env.cwd cfg st d = some (p, true))
    (hfind : cfg.FindUser st.selectedUser = some u)
    (hgrp : u.Group = some g) (hperm : g.CanCreateFile p = false) :
    handleCommandStoreFile env cfg st d =
      .ok st [.respond StatusActionNotTaken []] := by
  simp [handleCommandStoreFile, hpath, hfind, hgrp, hperm]

/-- **C10** (confirmed, implicit).  `ParseHost` indexes the comma-split
tokens at positions 4 and 5 (and slices `[:4]`) without checking that six
fields exist: on the empty string (one empty field) the Go code panics
with an index-out-of-range, and `handleCommandPort` therefore crashes
after its `Reset` — no syntax-error (or any other) response is written. -/
theorem parsehost_short_input_crashes :
    ParseHost [] = none ∧
      handleCommandPort authState [] = .crash [.reset] ∧
      handleCommandPort authState [] ≠
        .ok authState [.reset, .respond StatusSyntaxParamError []] := by
  decide

/-- Witness for **C9**: user `bob` in a group that may only create
directories tries `STOR f.txt` at home `/home/bob`. -/
theorem stor_denied_no_write_witness :
    handleCommandStoreFile trivEnv
        (.yaml
          [(gs "bob",
            { Home := gs "/home/bob", Hash := [], RawPassword := [],
              UserGroup := gs "g" })]
          [(gs "g",
            { CreateFlags := [gs "dir"], HandleFlags := [gs "dir"],
              DeleteFlags := [] })])
        { Dir := gs "/home/bob", User := gs "bob", TransferType := gs "AN",
          selectedUser := gs "bob", keepAlive := true } (gs "f.txt") =
      .ok { Dir := gs "/home/bob", User := gs "bob",
            TransferType := gs "AN", selectedUser := gs "bob",
            keepAlive := true } [.respond StatusActionNotTaken []] :=
  stor_denied_no_write trivEnv
    (.yaml
      [(gs "bob",
        { Home := gs "/home/bob", Hash := [], RawPassword := [],
          UserGroup := gs "g" })]
      [(gs "g",
        { CreateFlags := [gs "dir"], HandleFlags := [gs "dir"],
          DeleteFlags := [] })])
    { Dir := gs "/home/bob", User := gs "bob", TransferType := gs "AN",
      selectedUser := gs "bob", keepAlive := true } (gs "f.txt")
    (gs "/home/bob/f.txt")
    (.yaml
      { Home := gs "/home/bob", Hash := [], RawPassword := [],
        UserGroup := gs "g" }
      [(gs "g",
        { CreateFlags := [gs "dir"], HandleFlags := [gs "dir"],
          DeleteFlags := [] })])
    (.yamlG
      { CreateFlags := [gs "dir"], HandleFlags := [gs "dir"],
        DeleteFlags := [] })
    (by decide) (by decide) (by decide) (by decide)

theorem not_mem_itoaNat {c : Char} (hc : isDigitChar c = false) (n : Nat) :
    c ∉ itoaNat n := by
  intro hmem
  rw [itoaNat_digits n c hmem] at hc
  exact absurd hc (by decide)

theorem itoaInt_ofNat (n : Nat) : itoaInt (n : Int) = itoaNat n := by
  simp [itoaInt, Int.toNat_ofNat]

theorem tdiv_ofNat (m n : Nat) :
    Int.tdiv (m : Int) (n : Int) = ((m / n : Nat) : Int) := rfl

theorem tmod_ofNat (m n : Nat) :
    Int.tmod (m : Int) (n : Int) = ((m % n : Nat) : Int) := rfl

/-- **C3** (counterexample).  The spec's worked example is arithmetically
wrong: 8·256 + 77 = 2125, not 2121.  Encoding `10.0.0.1:2121` yields
`10,0,0,1,8,73` (2121 = 8·256 + 73), not `10,0,0,1,8,77`; and decoding
`10,0,0,1,8,77` yields `10.0.0.1:2125`, not `10.0.0.1:2121`. -/
theorem host_codec_example_wrong :
    GenerateHost (gs "10.0.0.1:2121") = some (gs "10,0,0,1,8,73") ∧
      GenerateHost (gs "10.0.0.1:2121") ≠ some (gs "10,0,0,1,8,77") ∧
      ParseHost (gs "10,0,0,1,8,77") = some (gs "10.0.0.1:2125") ∧
      ParseHost (gs "10,0,0,1,8,77") ≠ some (gs "10.0.0.1:2121") := by
  decide

theorem tdiv256_ofNat (p : Nat) :
    Int.tdiv (p : Int) 256 = ((p / 256 : Nat) : Int) := rfl

theorem tmod256_ofNat (p : Nat) :
    Int.tmod (p : Int) 256 = ((p % 256 : Nat) : Int) := rfl

/-- **C3** (amended).  `GenerateHost` and `ParseHost` are inverses on
well-formed IPv4 host:port strings: for octets `a.b.c.d` and a port
`p ≤ 65535` in canonical decimal, decoding the encoding gives the
original back.  The spec's concrete figures are corrected: encoding
`10.0.0.1:2121` yields `10,0,0,1,8,73` (2121 = 8·256 + 73), and decoding
`10,0,0,1,8,73` yields `10.0.0.1:2121`. -/
theorem host_codec_inverse (a b c d p : Nat)
    (ha : a ≤ 255) (hb : b ≤ 255) (hc : c ≤ 255) (hd4 : d ≤ 255)
    (hp : p ≤ 65535) :
    (GenerateHost ((itoaNat a ++ '.' :: (itoaNat b ++ '.' :: (itoaNat c ++
        '.' :: itoaNat d))) ++ ':' :: itoaNat p)).bind ParseHost =
      some ((itoaNat a ++ '.' :: (itoaNat b ++ '.' :: (itoaNat c ++
        '.' :: itoaNat d))) ++ ':' :: itoaNat p) ∧
    GenerateHost (gs "10.0.0.1:2121") = some (gs "10,0,0,1,8,73") ∧
    ParseHost (gs "10,0,0,1,8,73") = some (gs "10.0.0.1:2121") := by
  refine ⟨?_, by decide, by decide⟩
  have ncol : ∀ n : Nat, ':' ∉ itoaNat n :=
    fun n => not_mem_itoaNat (by decide) n
  have ncom : ∀ n : Nat, ',' ∉ itoaNat n :=
    fun n => not_mem_itoaNat (by decide) n
  have ndot : ∀ n : Nat, '.' ∉ itoaNat n :=
    fun n => not_mem_itoaNat (by decide) n
  have hhc : ':' ∉ itoaNat a ++ '.' :: (itoaNat b ++ '.' :: (itoaNat c ++
      '.' :: itoaNat d)) := by
    intro hmem
    rcases List.mem_append.mp hmem with h | h
    · exact ncol a h
    rcases List.mem_cons.mp h with h | h
    · exact absurd h (by decide)
    rcases List.mem_append.mp h with h | h
    · exact ncol b h
    rcases List.mem_cons.mp h with h | h
    · exact absurd h (by decide)
    rcases List.mem_append.mp h with h | h
    · exact ncol c h
    rcases List.mem_cons.mp h with h | h
    · exact absurd h (by decide)
    · exact ncol d h
  have hsplitColon :
      splitOnChar ':' ((itoaNat a ++ '.' :: (itoaNat b ++ '.' ::
          (itoaNat c ++ '.' :: itoaNat d))) ++ ':' :: itoaNat p) =
        [itoaNat a ++ '.' :: (itoaNat b ++ '.' :: (itoaNat c ++
          '.' :: itoaNat d)), itoaNat p] := by
    rw [splitOnChar_append _ hhc, splitOnChar_of_not_mem (ncol p)]
  have hsplitDots :
      splitOnChar '.' (itoaNat a ++ '.' :: (itoaNat b ++ '.' ::
          (itoaNat c ++ '.' :: itoaNat d))) =
        [itoaNat a, itoaNat b, itoaNat c, itoaNat d] := by
    rw [splitOnChar_append _ (ndot a), splitOnChar_append _ (ndot b),
      splitOnChar_append _ (ndot c), splitOnChar_of_not_mem (ndot d)]
  have hatoip : (atoi (itoaNat p)).getD 0 = (p : Int) := by
    rw [atoi_itoaNat]; rfl
  have hgen : GenerateHost ((itoaNat a ++ '.' :: (itoaNat b ++ '.' ::
      (itoaNat c ++ '.' :: itoaNat d))) ++ ':' :: itoaNat p) =
      some (itoaNat a ++ ',' :: (itoaNat b ++ ',' :: (itoaNat c ++
        ',' :: (itoaNat d ++ ',' :: (itoaNat (p / 256) ++
        ',' :: itoaNat (p % 256)))))) := by
    simp only [GenerateHost, hsplitColon, List.length_cons, List.length_nil,
      List.headD_cons, List.getD_cons_succ, List.getD_cons_zero, hsplitDots,
      hatoip, tdiv256_ofNat, tmod256_ofNat, itoaInt_ofNat]
    rw [if_pos (by omega)]
    simp [joinChar, List.append_assoc]
  rw [hgen, Option.some_bind]
  have hsplitCommas :
      splitOnChar ',' (itoaNat a ++ ',' :: (itoaNat b ++ ',' ::
          (itoaNat c ++ ',' :: (itoaNat d ++ ',' :: (itoaNat (p / 256) ++
          ',' :: itoaNat (p % 256)))))) =
        [itoaNat a, itoaNat b, itoaNat c, itoaNat d, itoaNat (p / 256),
          itoaNat (p % 256)] := by
    rw [splitOnChar_append _ (ncom a), splitOnChar_append _ (ncom b),
      splitOnChar_append _ (ncom c), splitOnChar_append _ (ncom d),
      splitOnChar_append _ (ncom (p / 256)),
      splitOnChar_of_not_mem (ncom (p % 256))]
  have hdivmod : ((p / 256 : Nat) : Int) * 256 + ((p % 256 : Nat) : Int) =
      (p : Int) := by
    push_cast
    omega
  simp only [ParseHost, hsplitCommas, List.length_cons, List.length_nil,
    List.getD_cons_succ, List.getD_cons_zero, atoi_itoaNat,
    Option.getD_some]
  rw [if_pos (by omega)]
  rw [hdivmod, itoaInt_ofNat]
  simp [joinChar, List.take, List.append_assoc]

/-- Witness for **C3** (amended) at `10.0.0.1:2121`. -/
theorem host_codec_inverse_witness :
    (GenerateHost ((itoaNat 10 ++ '.' :: (itoaNat 0 ++ '.' :: (itoaNat 0 ++
        '.' :: itoaNat 1))) ++ ':' :: itoaNat 2121)).bind ParseHost =
      some ((itoaNat 10 ++ '.' :: (itoaNat 0 ++ '.' :: (itoaNat 0 ++
        '.' :: itoaNat 1))) ++ ':' :: itoaNat 2121) :=
  (host_codec_inverse 10 0 0 1 2121 (by decide) (by decide) (by decide)
    (by decide) (by decide)).1

/-! ## Path-resolver lemmas (towards the home-containment claim) -/
theorem splitOnChar_not_mem (c : Char) (s : GoStr) :
    ∀ x ∈ splitOnChar c s, c ∉ x := by
  induction s with
  | nil =>
    intro x hx
    simp only [splitOnChar, List.mem_singleton] at hx
    subst hx
    simp
  | cons y ys ih =>
    intro x hx
    simp only [splitOnChar] at hx
    split at hx
    · rcases List.mem_cons.mp hx with rfl | hx
      · simp
      · exact ih x hx
    · rename_i hyc
      cases hs : splitOnChar c ys with
      | nil => exact absurd hs (splitOnChar_ne_nil c ys)
      | cons z zs =>
        rw [hs] at hx
        rcases List.mem_cons.mp hx with rfl | hx
        · intro hmem
          rcases List.mem_cons.mp hmem with rfl | hmem
          · exact hyc rfl
          · exact ih z (by rw [hs]; exact List.mem_cons_self z zs) hmem
        · exact ih x (by rw [hs]; exact List.mem_cons_of_mem z hx)

theorem splitOnChar_joinChar (c : Char) :
    ∀ parts : List GoStr, parts ≠ [] → (∀ x ∈ parts, c ∉ x) →
      splitOnChar c (joinChar c parts) = parts := by
  intro parts
  induction parts with
  | nil => intro h; exact absurd rfl h
  | cons x xt ih =>
    intro _ hfree
    cases xt with
    | nil =>
      show splitOnChar c x = [x]
      exact splitOnChar_of_not_mem (hfree x (List.mem_cons_self x []))
    | cons y yt =>
      rw [joinChar_cons_cons]
      rw [splitOnChar_append _ (hfree x (List.mem_cons_self x (y :: yt)))]
      rw [ih (by simp) (fun z hz => hfree z (List.mem_cons_of_mem x hz))]

theorem joinChar_append_of_ne_nil (c : Char) :
    ∀ (as bs : List GoStr), as ≠ [] → bs ≠ [] →
      joinChar c (as ++ bs) = joinChar c as ++ c :: joinChar c bs := by
  intro as
  induction as with
  | nil => intro bs h; exact absurd rfl h
  | cons a at' ih =>
    intro bs _ hbs
    cases at' with
    | nil =>
      cases bs with
      | nil => exact absurd rfl hbs
      | cons b bt =>
        rw [List.singleton_append, joinChar_cons_cons]
        rfl
    | cons a2 at2 =>
      have ih' := ih bs (by simp) hbs
      rw [List.cons_append] at ih'
      rw [List.cons_append, List.cons_append, joinChar_cons_cons, ih',
        joinChar_cons_cons]
      simp [List.append_assoc]

theorem cleanComponents_nil (rooted : Bool) (acc : List GoStr) :
    cleanComponents rooted acc [] = acc.reverse := rfl

theorem cleanComponents_skip (rooted : Bool) (acc : List GoStr) (c : GoStr)
    (cs : List GoStr) (h : c = [] ∨ c = ['.']) :
    cleanComponents rooted acc (c :: cs) = cleanComponents rooted acc cs := by
  simp [cleanComponents, h]

theorem cleanComponents_dd_nil (rooted : Bool) (cs : List GoStr) :
    cleanComponents rooted [] (['.', '.'] :: cs) =
      if rooted then cleanComponents rooted [] cs
      else cleanComponents rooted [['.', '.']] cs := by
  simp [cleanComponents]

theorem cleanComponents_dd_cons (rooted : Bool) (a : GoStr)
    (as cs : List GoStr) :
    cleanComponents rooted (a :: as) (['.', '.'] :: cs) =
      if a = ['.', '.'] then
        cleanComponents rooted (['.', '.'] :: a :: as) cs
      else cleanComponents rooted as cs := by
  simp [cleanComponents]

theorem cleanComponents_push (rooted : Bool) (acc : List GoStr) (c : GoStr)
    (cs : List GoStr) (h1 : ¬(c = [] ∨ c = ['.'])) (h2 : c ≠ ['.', '.']) :
    cleanComponents rooted acc (c :: cs) =
      cleanComponents rooted (c :: acc) cs := by
  simp only [cleanComponents, if_neg h1, if_neg h2]

theorem cleanComponents_rooted_inv :
    ∀ (cs acc : List GoStr), (∀ x ∈ acc, goodComp x) →
      (∀ x ∈ cs, '/' ∉ x) →
      ∀ x ∈ cleanComponents true acc cs, goodComp x := by
  intro cs
  induction cs with
  | nil =>
    intro acc hacc _ x hx
    rw [cleanComponents_nil] at hx
    exact hacc x (List.mem_reverse.mp hx)
  | cons c cs' ih =>
    intro acc hacc hcs x hx
    have hcs' : ∀ y ∈ cs', '/' ∉ y :=
      fun y hy => hcs y (List.mem_cons_of_mem c hy)
    by_cases hskip : c = [] ∨ c = ['.']
    · rw [cleanComponents_skip _ _ _ _ hskip] at hx
      exact ih acc hacc hcs' x hx
    · by_cases hdd : c = ['.', '.']
      · subst hdd
        cases acc with
        | nil =>
          rw [cleanComponents_dd_nil, if_pos rfl] at hx
          exact ih [] (by simp) hcs' x hx
        | cons a as =>
          have ha : goodComp a := hacc a (List.mem_cons_self a as)
          rw [cleanComponents_dd_cons, if_neg ha.2.2.1] at hx
          exact ih as (fun y hy => hacc y (List.mem_cons_of_mem a hy))
            hcs' x hx
      · rw [cleanComponents_push _ _ _ _ hskip hdd] at hx
        refine ih (c :: acc) ?_ hcs' x hx
        intro y hy
        rcases List.mem_cons.mp hy with rfl | hy
        · push_neg at hskip
          exact ⟨hskip.1, hskip.2, hdd, hcs y (List.mem_cons_self y cs')⟩
        · exact hacc y hy

theorem cleanComponents_plain (rooted : Bool) :
    ∀ (cs acc : List GoStr),
      (∀ x ∈ cs, x ≠ [] ∧ x ≠ ['.'] ∧ x ≠ ['.', '.']) →
      cleanComponents rooted acc cs = acc.reverse ++ cs := by
  intro cs
  induction cs with
  | nil => intro acc _; simp [cleanComponents_nil]
  | cons c cs' ih =>
    intro acc hcs
    have hc := hcs c (List.mem_cons_self c cs')
    rw [cleanComponents_push _ _ _ _ (by push_neg; exact ⟨hc.1, hc.2.1⟩)
      hc.2.2]
    rw [ih (c :: acc) (fun y hy => hcs y (List.mem_cons_of_mem c hy))]
    simp [List.append_assoc]

theorem splitOnChar_cons_self (c : Char) (xs : GoStr) :
    splitOnChar c (c :: xs) = [] :: splitOnChar c xs := by
  simp [splitOnChar]

theorem isAbs_nonempty {p : GoStr} (h : isAbs p = true) : p ≠ [] := by
  intro hnil
  rw [hnil] at h
  exact absurd h (by decide)

theorem isAbs_cons {p : GoStr} (h : isAbs p = true) :
    ∃ q, p = '/' :: q := by
  cases p with
  | nil => exact absurd h (by decide)
  | cons x xs =>
    simp only [isAbs, List.head?, Option.some.injEq, decide_eq_true_eq] at h
    exact ⟨xs, by rw [h]⟩

theorem clean_abs_form {p : GoStr} (h : isAbs p = true) :
    clean p =
      '/' :: joinChar '/' (cleanComponents true [] (splitOnChar '/' p)) := by
  rw [clean, if_neg (isAbs_nonempty h)]
  simp only [h, if_pos]

theorem isAbs_clean {p : GoStr} (h : isAbs p = true) :
    isAbs (clean p) = true := by
  rw [clean_abs_form h]
  rfl

theorem clean_ne_dot_of_abs {p : GoStr} (h : isAbs p = true) :
    clean p ≠ ['.'] := by
  rw [clean_abs_form h]
  intro heq
  have := congrArg List.head? heq
  simp at this

theorem clean_good_comps {p : GoStr} (h : isAbs p = true) :
    ∀ x ∈ cleanComponents true [] (splitOnChar '/' p), goodComp x :=
  cleanComponents_rooted_inv (splitOnChar '/' p) [] (by simp)
    (splitOnChar_not_mem '/' p)

/-- Cleaning an absolute path is idempotent. -/
theorem clean_idem_abs {p : GoStr} (h : isAbs p = true) :
    clean (clean p) = clean p := by
  have hform := clean_abs_form h
  have hgood := clean_good_comps h
  cases hcomps : cleanComponents true [] (splitOnChar '/' p) with
  | nil =>
    rw [hform, hcomps]
    decide
  | cons x xt =>
    rw [hform, hcomps]
    have habs2 : isAbs ('/' :: joinChar '/' (x :: xt)) = true := rfl
    rw [clean_abs_form habs2]
    rw [splitOnChar_cons_self]
    rw [splitOnChar_joinChar '/' (x :: xt) (by simp)
      (fun y hy => (hgood y (by rw [hcomps]; exact hy)).2.2.2)]
    rw [cleanComponents_skip _ _ _ _ (Or.inl rfl)]
    rw [cleanComponents_plain true (x :: xt) []
      (fun y hy => by
        have := hgood y (by rw [hcomps]; exact hy)
        exact ⟨this.1, this.2.1, this.2.2.1⟩)]
    rfl

/-- Reconstruction of an absolute path from its `Rel` elements. -/
theorem reconstruct_abs {q : GoStr} (h : isAbs q = true) :
    q = '/' :: joinChar '/' (relComponents q) := by
  obtain ⟨q', rfl⟩ := isAbs_cons h
  by_cases hroot : ('/' :: q' : GoStr) = ['/']
  · rw [hroot]
    rfl
  · rw [relComponents, if_neg (by simp), if_neg hroot, if_pos h]
    rw [splitOnChar_cons_self, List.tail_cons]
    rw [joinChar_splitOnChar]

theorem stripCommon_nil_left :
    ∀ (bs ts tl : List GoStr), stripCommon bs ts = ([], tl) →
      ts = bs ++ tl := by
  intro bs
  induction bs with
  | nil =>
    intro ts tl h
    simp only [stripCommon, Prod.mk.injEq] at h
    rw [h.2]
    rfl
  | cons b bs' ih =>
    intro ts tl h
    cases ts with
    | nil =>
      simp only [stripCommon, Prod.mk.injEq] at h
      exact absurd h.1 (by simp)
    | cons t ts' =>
      simp only [stripCommon] at h
      split at h
      · rename_i hbt
        rw [List.cons_append, hbt]
        exact congrArg (t :: ·) (ih ts' tl h)
      · simp only [Prod.mk.injEq] at h
        exact absurd h.1 (by simp)

theorem dotdot_prefix_ups (n : Nat) (hn : n ≠ 0) :
    ['.', '.'] <+: joinChar '/' (List.replicate n ['.', '.']) := by
  cases n with
  | zero => exact absurd rfl hn
  | succ m =>
    cases m with
    | zero => simp [joinChar]
    | succ k =>
      rw [List.replicate_succ, List.replicate_succ, joinChar_cons_cons]
      exact ⟨'/' :: joinChar '/' (List.replicate (k + 1) ['.', '.']), rfl⟩

/-- If `filepath.Rel home r` succeeds on an absolute, cleaned `r` with a
`..`-free result, then `r` lies under `home`. -/
theorem goRel_contained {home r : GoStr} (hhome : isAbs home = true)
    (hr : isAbs r = true) (hclean : clean r = r) {rel : GoStr}
    (hgr : goRel home r = some rel) (hdd : containsDotDot rel = false) :
    isUnder home r := by
  by_cases heq : r = clean home
  · exact Or.inl heq
  simp only [goRel, hclean] at hgr
  rw [if_neg heq] at hgr
  rw [if_neg (clean_ne_dot_of_abs hhome)] at hgr
  have hslash : ¬(isAbs (clean home) ≠ isAbs r) := by
    rw [isAbs_clean hhome, hr]
    simp
  rw [if_neg hslash] at hgr
  rcases hsc : stripCommon (relComponents (clean home)) (relComponents r)
    with ⟨bl, tl⟩
  rw [hsc] at hgr
  dsimp only at hgr
  by_cases h1 : bl.head? = some ['.', '.']
  · rw [if_pos h1] at hgr
    exact absurd hgr (by simp)
  rw [if_neg h1] at hgr
  by_cases h2 : bl = []
  · rw [if_neg (fun hne => hne h2)] at hgr
    subst h2
    have htargs := stripCommon_nil_left _ _ _ hsc
    have hrec_r : r = '/' :: joinChar '/' (relComponents r) :=
      reconstruct_abs hr
    have hrec_h : clean home =
        '/' :: joinChar '/' (relComponents (clean home)) :=
      reconstruct_abs (isAbs_clean hhome)
    by_cases hb : relComponents (clean home) = []
    · have hch : clean home = ['/'] := by
        rw [hrec_h, hb]
        rfl
      right
      rw [if_pos hch]
      obtain ⟨q, hq⟩ := isAbs_cons hr
      exact hq ▸ ⟨q, rfl⟩
    · cases htl : tl with
      | nil =>
        exfalso
        apply heq
        rw [htl, List.append_nil] at htargs
        rw [hrec_r, htargs, ← hrec_h]
      | cons t tt =>
        right
        rw [if_neg (fun hch => hb (by rw [hch]; rfl))]
        refine ⟨joinChar '/' tl, ?_⟩
        have hjoin : joinChar '/' (relComponents (clean home) ++ tl) =
            joinChar '/' (relComponents (clean home)) ++
              '/' :: joinChar '/' tl :=
          joinChar_append_of_ne_nil '/' _ _ hb (by rw [htl]; simp)
        rw [hrec_r, htargs, hjoin]
        nth_rewrite 1 [hrec_h]
        simp [List.append_assoc]
  · rw [if_pos h2] at hgr
    exfalso
    have hrel := (Option.some.inj hgr).symm
    have hn : bl.length ≠ 0 := by simpa using h2
    have hups := dotdot_prefix_ups bl.length hn
    have hpref : ['.', '.'] <+: rel := by
      rw [hrel]
      split
      · exact hups
      · exact hups.trans (List.prefix_append _ _)
    have hinf : ['.', '.'] <:+: rel := hpref.isInfix
    have htrue : containsDotDot rel = true := by
      rw [containsDotDot]
      exact decide_eq_true hinf
    rw [hdd] at htrue
    exact absurd htrue (by decide)

theorem goJoin_abs {a : GoStr} (b : GoStr) (h : isAbs a = true) :
    isAbs (goJoin a b) = true := by
  have hne := isAbs_nonempty h
  rw [goJoin]
  rw [if_neg (fun hand => hne hand.1), if_neg hne]
  by_cases hb : b = []
  · rw [if_pos hb]
    exact isAbs_clean h
  · rw [if_neg hb]
    apply isAbs_clean
    obtain ⟨q, rfl⟩ := isAbs_cons h
    rfl

/-- **C1** (confirmed).  For a session whose authenticated user resolves
to `u` with absolute home directory, and an absolute current directory
(the session invariant — every directory ever installed by the handlers
is such a resolved path or the home itself), `GetRelativePath` either
reports failure or returns `ok` together with an absolute path lying
inside the home directory; it never returns `ok` with a path outside. -/
theorem GetRelativePath_contained (cwd : GoStr) (cfg : FTPUserConfig)
    (st : SessionState) (p2 : GoStr) (u : FTPUser) (r : GoStr)
    (hu : cfg.FindUser st.User = some u)
    (hhome : isAbs u.HomeDir = true)
    (hdir : isAbs st.Dir = true)
    (hres : GetRelativePath cwd cfg st p2 = some (r, true)) :
    isAbs r = true ∧ isUnder u.HomeDir r := by
  simp only [GetRelativePath, hu] at hres
  have hp1 : isAbs (if isAbs p2 then p2 else goJoin st.Dir p2) = true := by
    by_cases habs : isAbs p2
    · rw [if_pos habs]
      exact habs
    · rw [if_neg habs]
      exact goJoin_abs p2 hdir
  rw [show goAbs cwd (if isAbs p2 then p2 else goJoin st.Dir p2) =
      clean (if isAbs p2 then p2 else goJoin st.Dir p2) from
    by rw [goAbs, if_pos hp1]] at hres
  cases hgr : goRel u.HomeDir
      (clean (if isAbs p2 then p2 else goJoin st.Dir p2)) with
  | none =>
    rw [hgr] at hres
    simp at hres
  | some rel =>
    rw [hgr] at hres
    dsimp only at hres
    by_cases hddc : containsDotDot rel
    · rw [if_pos hddc] at hres
      simp at hres
    · rw [if_neg hddc] at hres
      simp only [Option.some.injEq, Prod.mk.injEq] at hres
      obtain ⟨hreq, -⟩ := hres
      have hdd : containsDotDot rel = false := by simpa using hddc
      constructor
      · rw [← hreq]
        exact isAbs_clean hp1
      · rw [← hreq]
        exact goRel_contained hhome (isAbs_clean hp1) (clean_idem_abs hp1)
          hgr hdd

/-- Witness for **C1**: the anonymous user at home `/srv` resolving the
relative argument `file.txt`. -/
theorem GetRelativePath_contained_witness :
    isAbs (gs "/srv/file.txt") = true ∧
      isUnder (gs "/srv") (gs "/srv/file.txt") :=
  GetRelativePath_contained (gs "/") (.default (gs "/srv")) authState
    (gs "file.txt") (.default (gs "/srv")) (gs "/srv/file.txt")
    (by decide) (by decide) (by decide) (by decide)

